import Mathlib

/-!
# Vehicle lifecycle state machine (pkg/domain/vehicle.go)

A shallow embedding of the `domain` package: the vehicle aggregate, the
role-gated operations on it, and the two fleet sweeps.  The vehicle owns a
`looplab/fsm` state machine; the three primitives the package uses
(`Can`, `Event`, `SetState`) are embedded as functions on the vehicle, since
the callbacks registered in `NewVehicle` write to the vehicle itself.

The wall clock is an explicit input `now` (nanoseconds): every `time.Now()`
of one call reads it.
-/

namespace Domain

/-! ## Data model -/

/-- The seven state constants (`readyState` .. `unknownState`). -/
inductive State
  | ready
  | riding
  | batteryLow
  | bounty
  | collected
  | dropped
  | unknown
  deriving DecidableEq, Repr

/-- The Go string constant behind each state. -/
def State.name : State → String
  | .ready => "ready"
  | .riding => "riding"
  | .batteryLow => "batteryLow"
  | .bounty => "bounty"
  | .collected => "collected"
  | .dropped => "dropped"
  | .unknown => "unknown"

/-- The eight event constants (`startRideEvent` .. `unknownEvent`). -/
inductive EventName
  | startRideEvent
  | finishRideEvent
  | batteryLowEvent
  | bountyEvent
  | collectedEvent
  | droppedEvent
  | readyEvent
  | unknownEvent
  deriving DecidableEq, Repr

/-- The Go string constant behind each event. -/
def EventName.name : EventName → String
  | .startRideEvent => "startRideEvent"
  | .finishRideEvent => "finishRideEvent"
  | .batteryLowEvent => "batteryLowEvent"
  | .bountyEvent => "bountyEvent"
  | .collectedEvent => "collectedEvent"
  | .droppedEvent => "droppedEvent"
  | .readyEvent => "readyEvent"
  | .unknownEvent => "unknownEvent"

/-- The Go type `UserRole` is `int`: any integer is a role value. -/
abbrev UserRole := Int

/-- Embeds `EndUser UserRole = iota + 1`. -/
def EndUser : UserRole := 1

/-- Second constant of the `iota + 1` block. -/
def Hunter : UserRole := 2

/-- Third constant of the `iota + 1` block. -/
def Admin : UserRole := 3

/-- An instant, in nanoseconds. -/
abbrev Time := Int

/-- The struct `Vehicle`; the field `current` is the current state held by
the `fsm` field. -/
structure Vehicle where
  battery : Int
  current : State
  LastChangeOfState : Time
  deriving DecidableEq, Repr

/-- A Go `error` value: `none` is `nil`, `some msg` an error with that message. -/
abbrev Error := Option String

/-! ## The state machine engine (`looplab/fsm`, as configured by `NewVehicle`) -/

/-- One row of `fsm.Events`. -/
structure EventDesc where
  Name : EventName
  Src : List State
  Dst : State

/-- The `fsm.Events` table passed to `fsm.NewFSM` in `NewVehicle`. -/
def events : List EventDesc :=
  [ { Name := .startRideEvent, Src := [.ready], Dst := .riding },
    { Name := .finishRideEvent, Src := [.riding], Dst := .ready },
    { Name := .batteryLowEvent, Src := [.riding], Dst := .batteryLow },
    { Name := .bountyEvent, Src := [.ready, .batteryLow], Dst := .bounty },
    { Name := .collectedEvent, Src := [.bounty], Dst := .collected },
    { Name := .droppedEvent, Src := [.collected], Dst := .dropped },
    { Name := .readyEvent, Src := [.dropped], Dst := .ready },
    { Name := .unknownEvent, Src := [.ready], Dst := .unknown } ]

/-- The map `transitions[eKey(event, src)] = dst` that `NewFSM` builds from the
table (no key occurs twice in it). -/
def transitions (e : EventName) (s : State) : Option State :=
  (events.find? (fun d => decide (d.Name = e) && d.Src.contains s)).map EventDesc.Dst

namespace FSM

/-- Embeds `fsm.Can(event)`: the event has a transition from the current state
(no transition is ever pending between two calls). -/
def Can (e : EventName) (v : Vehicle) : Bool :=
  (transitions e v.current).isSome

/-- Embeds `fsm.SetState(state)`: moves to the given state; it triggers no callback. -/
def SetState (s : State) (v : Vehicle) : Vehicle :=
  { v with current := s }

/-- The enter-state callbacks run by a fired event, in the order the engine
calls them: first the callback of the state just entered (only
`enter_batteryLow` is registered: it sets the state to bounty), then the
general `enter_state` (it stamps `LastChangeOfState`). -/
def enterStateCallbacks (now : Time) (v : Vehicle) : Vehicle :=
  let v1 := if v.current = .batteryLow then SetState .bounty v else v
  { v1 with LastChangeOfState := now }

/-- Embeds `fsm.Event(event)`: without a transition from the current state it fails
with the engine's invalid-event error and changes nothing; a transition to the
state already current fails with the no-transition error; otherwise the state
becomes the destination, the enter-state callbacks run and the result is
`nil`. -/
def Event (now : Time) (e : EventName) (v : Vehicle) : Vehicle × Error :=
  match transitions e v.current with
  | none =>
    if events.any (fun d => decide (d.Name = e)) then
      (v, some ("event " ++ e.name ++ " inappropriate in current state " ++ v.current.name))
    else
      (v, some ("event " ++ e.name ++ " does not exist"))
  | some dst =>
    if v.current = dst then (v, some "no transition")
    else (enterStateCallbacks now { v with current := dst }, none)

end FSM

/-! ## The vehicle and its operations -/

/-- Embeds `NewVehicle()`: battery 100, stamped with the creation time, machine in
ready. -/
def NewVehicle (now : Time) : Vehicle :=
  { battery := 100, current := .ready, LastChangeOfState := now }

/-- Embeds `Battery()`. -/
def Battery (v : Vehicle) : Int := v.battery

/-- Embeds `GetCurrentState()`: the current state as its string. -/
def GetCurrentState (v : Vehicle) : String := v.current.name

/-- Embeds `StartRide(role)`. -/
def StartRide (now : Time) (role : UserRole) (v : Vehicle) : Vehicle × Error :=
  if role = Hunter ∨ role = EndUser then
    if FSM.Can .startRideEvent v then FSM.Event now .startRideEvent v
    else (v, some ("you cannot finish a ride right now the current state is " ++ GetCurrentState v))
  else if role = Admin then
    ({ FSM.SetState .riding v with LastChangeOfState := now }, none)
  else (v, none)

/-- Embeds `FinishRide(batteryLeft, role)`. -/
def FinishRide (now : Time) (batteryLeft : Int) (role : UserRole) (v : Vehicle) :
    Vehicle × Error :=
  if role = Hunter ∨ role = EndUser then
    if FSM.Can .finishRideEvent v then
      let v1 := { v with battery := batteryLeft }
      if v1.battery < 20 then FSM.Event now .batteryLowEvent v1
      else FSM.Event now .finishRideEvent v1
    else (v, some ("you cannot finish a ride right now the current state is " ++ GetCurrentState v))
  else if role = Admin then
    let v1 := { v with battery := batteryLeft }
    ({ FSM.SetState .ready v1 with LastChangeOfState := now }, none)
  else (v, none)

/-- Embeds `Collect(role)`. -/
def Collect (now : Time) (role : UserRole) (v : Vehicle) : Vehicle × Error :=
  if role = EndUser then (v, some "you cannot collect the vehicle being end user")
  else if role = Hunter then
    if FSM.Can .collectedEvent v then FSM.Event now .collectedEvent v
    else (v, some ("you cannot collect the vehicle right now the current state is "
      ++ GetCurrentState v))
  else if role = Admin then
    ({ FSM.SetState .collected v with LastChangeOfState := now }, none)
  else (v, none)

/-- Embeds `Drop(role)`. -/
def Drop (now : Time) (role : UserRole) (v : Vehicle) : Vehicle × Error :=
  if role = EndUser then (v, some "you cannot drop the vehicle being end user")
  else if role = Hunter then
    if FSM.Can .droppedEvent v then FSM.Event now .droppedEvent v
    else (v, some ("you cannot drop the vehicle right now the current state is "
      ++ GetCurrentState v))
  else if role = Admin then
    ({ FSM.SetState .dropped v with LastChangeOfState := now }, none)
  else (v, none)

/-- Embeds `Ready(role)`. -/
def Ready (now : Time) (role : UserRole) (v : Vehicle) : Vehicle × Error :=
  if role = EndUser then (v, some "you cannot set the vehicle as ready being end user")
  else if role = Hunter then
    if FSM.Can .readyEvent v then
      FSM.Event now .readyEvent { v with battery := 100 }
    else (v, some ("you cannot set the vehicle ready right now the current state is "
      ++ GetCurrentState v))
  else if role = Admin then
    let v1 := { v with battery := 100 }
    ({ FSM.SetState .ready v1 with LastChangeOfState := now }, none)
  else (v, none)

/-- Embeds `SetBatteryLow(role)`. -/
def SetBatteryLow (now : Time) (role : UserRole) (v : Vehicle) : Vehicle × Error :=
  if role = Admin then
    ({ FSM.SetState .batteryLow v with LastChangeOfState := now }, none)
  else (v, some "only admin can set the vehicle on low battery")

/-- Embeds `SetBounty(role)`. -/
def SetBounty (now : Time) (role : UserRole) (v : Vehicle) : Vehicle × Error :=
  if role = Admin then
    ({ FSM.SetState .bounty v with LastChangeOfState := now }, none)
  else (v, some "only admin can set the vehicle on bounty")

/-- Embeds `Unknown(role)`. -/
def Unknown (now : Time) (role : UserRole) (v : Vehicle) : Vehicle × Error :=
  if role = Admin then
    if FSM.Can .unknownEvent v then FSM.Event now .unknownEvent v
    else (v, some ("you cannot set the vehicle to unknown right now the current state is "
      ++ GetCurrentState v))
  else (v, some "only admin can set the vehicle to unknown")

/-! ## Time -/

/-- Embeds `time.Hour`, in nanoseconds. -/
def Hour : Int := 60 * 60 * 1000000000

/-- The largest `time.Duration` (an `int64` count of nanoseconds). -/
def maxDuration : Int := 2 ^ 63 - 1

/-- The smallest `time.Duration`. -/
def minDuration : Int := -(2 ^ 63)

/-- Embeds `t.Sub(u)`: the duration `t - u`, saturated at the largest and smallest
duration. -/
def Time.Sub (t u : Time) : Int :=
  let d : Int := t - u
  if maxDuration < d then maxDuration
  else if d < minDuration then minDuration
  else d

/-- Embeds `time.Since(t)`, which is `time.Now().Sub(t)`. -/
def Since (now t : Time) : Int := Time.Sub now t

/-- Embeds `Duration.Hours()`: whole hours plus the remaining nanoseconds as a
fraction of an hour (`/` and `%` of Go truncate toward zero).  Go computes the
sum in `float64`; the value here is the exact one.  Both roundings are
monotone and 48 is a `float64`, and for a remainder of at most
`Hour - 1` nanoseconds on top of 47 whole hours the rounded sum stays below
48, so the comparison with 48 made by the sweep is the same on both. -/
def Hours (d : Int) : ℚ :=
  ((d.tdiv Hour : Int) : ℚ) + ((d.tmod Hour : Int) : ℚ) / (60 * 60 * 1000000000)

/-! ## Fleet sweeps

The slice `[]*Vehicle` is a list of addresses into a store of vehicles, so
that one vehicle may occur in the slice more than once; every address of the
slice is that of a vehicle (no nil entry).  One sweep reads the clock as `now`
at every vehicle. -/

/-- The store: the vehicle behind each address. -/
abbrev Heap := Nat → Vehicle

/-- Writing a vehicle through its address. -/
def Heap.set (h : Heap) (p : Nat) (v : Vehicle) : Heap :=
  fun q => if q = p then v else h q

/-- Body of the loop of `SetVehiclesFromReadyToBounty`, on the store and the
errors collected so far. -/
def readyToBountyBody (now : Time) (acc : Heap × List String) (p : Nat) :
    Heap × List String :=
  let v := acc.1 p
  if FSM.Can .bountyEvent v then
    let r := FSM.Event now .bountyEvent v
    match r.2 with
    | some err => (acc.1.set p r.1, acc.2 ++ [err])
    | none => (acc.1.set p r.1, acc.2)
  else acc

/-- Embeds `SetVehiclesFromReadyToBounty(vehicles)`: the store after the loop and the
returned errors. -/
def SetVehiclesFromReadyToBounty (now : Time) (vehicles : List Nat) (h : Heap) :
    Heap × List String :=
  vehicles.foldl (readyToBountyBody now) (h, [])

/-- Body of the loop of `SetVehiclesFromReadyToUnknown`. -/
def readyToUnknownBody (now : Time) (acc : Heap × List String) (p : Nat) :
    Heap × List String :=
  let v := acc.1 p
  let duration := Since now v.LastChangeOfState
  if 48 ≤ Hours duration then
    if FSM.Can .unknownEvent v then
      let r := FSM.Event now .unknownEvent v
      match r.2 with
      | some err => (acc.1.set p r.1, acc.2 ++ [err])
      | none => (acc.1.set p r.1, acc.2)
    else acc
  else acc

/-- Embeds `SetVehiclesFromReadyToUnknown(vehicles)`: the store after the loop and
the returned errors. -/
def SetVehiclesFromReadyToUnknown (now : Time) (vehicles : List Nat) (h : Heap) :
    Heap × List String :=
  vehicles.foldl (readyToUnknownBody now) (h, [])

/-! ## Callers

A caller works on a store of vehicles: it calls an operation on the vehicle
behind an address, or a sweep on a slice of addresses, each call at its own
clock reading. -/

/-- One call into the package. -/
inductive Call
  | startRide (p : Nat) (role : UserRole)
  | finishRide (p : Nat) (batteryLeft : Int) (role : UserRole)
  | collect (p : Nat) (role : UserRole)
  | drop (p : Nat) (role : UserRole)
  | ready (p : Nat) (role : UserRole)
  | setBatteryLow (p : Nat) (role : UserRole)
  | setBounty (p : Nat) (role : UserRole)
  | unknown (p : Nat) (role : UserRole)
  | sweepToBounty (vehicles : List Nat)
  | sweepToUnknown (vehicles : List Nat)
  deriving DecidableEq, Repr

/-- The role argument of a call; the sweeps take none. -/
def Call.role : Call → Option UserRole
  | .startRide _ r => some r
  | .finishRide _ _ r => some r
  | .collect _ r => some r
  | .drop _ r => some r
  | .ready _ r => some r
  | .setBatteryLow _ r => some r
  | .setBounty _ r => some r
  | .unknown _ r => some r
  | .sweepToBounty _ => none
  | .sweepToUnknown _ => none

/-- The store after one call made at clock reading now (the returned errors
are dropped). -/
def Call.exec (now : Time) (c : Call) (h : Heap) : Heap :=
  match c with
  | .startRide p r => h.set p (StartRide now r (h p)).1
  | .finishRide p b r => h.set p (FinishRide now b r (h p)).1
  | .collect p r => h.set p (Collect now r (h p)).1
  | .drop p r => h.set p (Drop now r (h p)).1
  | .ready p r => h.set p (Ready now r (h p)).1
  | .setBatteryLow p r => h.set p (SetBatteryLow now r (h p)).1
  | .setBounty p r => h.set p (SetBounty now r (h p)).1
  | .unknown p r => h.set p (Unknown now r (h p)).1
  | .sweepToBounty vs => (SetVehiclesFromReadyToBounty now vs h).1
  | .sweepToUnknown vs => (SetVehiclesFromReadyToUnknown now vs h).1

/-- The store after a sequence of calls, each paired with its clock reading. -/
def run (calls : List (Time × Call)) (h : Heap) : Heap :=
  calls.foldl (fun h c => c.2.exec c.1 h) h

/-- A store in which every vehicle has just come out of `NewVehicle`, the one
behind address p at instant `created p`. -/
def newStore (created : Nat → Time) : Heap :=
  fun p => NewVehicle (created p)

end Domain

namespace Domain

/-! ## The engine on the transition table -/

/-- The transition map, state by state: each event fires exactly from the
sources of its row and leads to the destination of its row. -/
theorem transitions_table (s : State) :
    transitions .startRideEvent s = (if s = .ready then some .riding else none) ∧
    transitions .finishRideEvent s = (if s = .riding then some .ready else none) ∧
    transitions .batteryLowEvent s = (if s = .riding then some .batteryLow else none) ∧
    transitions .bountyEvent s =
      (if s = .ready ∨ s = .batteryLow then some .bounty else none) ∧
    transitions .collectedEvent s = (if s = .bounty then some .collected else none) ∧
    transitions .droppedEvent s = (if s = .collected then some .dropped else none) ∧
    transitions .readyEvent s = (if s = .dropped then some .ready else none) ∧
    transitions .unknownEvent s = (if s = .ready then some .unknown else none) := by
  cases s <;> decide

/-! ## Denied, validated and forced operations -/

/-- C1: every denied (operation, role) pair returns an error, whatever the
vehicle's state, battery and timestamp: Collect, Drop and Ready with EndUser,
and SetBatteryLow, SetBounty and Unknown with EndUser or Hunter. -/
theorem denied_pairs_return_error (now : Time) (v : Vehicle) :
    (Collect now EndUser v).2 ≠ none ∧ (Drop now EndUser v).2 ≠ none ∧
    (Ready now EndUser v).2 ≠ none ∧
    (SetBatteryLow now EndUser v).2 ≠ none ∧ (SetBatteryLow now Hunter v).2 ≠ none ∧
    (SetBounty now EndUser v).2 ≠ none ∧ (SetBounty now Hunter v).2 ≠ none ∧
    (Unknown now EndUser v).2 ≠ none ∧ (Unknown now Hunter v).2 ≠ none := by
  simp [Collect, Drop, Ready, SetBatteryLow, SetBounty, Unknown, EndUser, Hunter, Admin]

/-- C2: for the validated pairs other than FinishRide (StartRide with EndUser
or Hunter; Collect, Drop and Ready with Hunter; Unknown with Admin) the
operation succeeds exactly when the current state is the allowed source of its
event in the transition table, which is exactly when the event can fire, and
on success the state is the destination of the event. -/
theorem validated_success_iff_allowed_source (now : Time) (v : Vehicle) (r : UserRole)
    (hr : r = EndUser ∨ r = Hunter) :
    (((StartRide now r v).2 = none ↔ v.current = .ready) ∧
      ((StartRide now r v).2 = none ↔ FSM.Can .startRideEvent v = true) ∧
      ((StartRide now r v).2 = none → (StartRide now r v).1.current = .riding)) ∧
    (((Collect now Hunter v).2 = none ↔ v.current = .bounty) ∧
      ((Collect now Hunter v).2 = none ↔ FSM.Can .collectedEvent v = true) ∧
      ((Collect now Hunter v).2 = none → (Collect now Hunter v).1.current = .collected)) ∧
    (((Drop now Hunter v).2 = none ↔ v.current = .collected) ∧
      ((Drop now Hunter v).2 = none ↔ FSM.Can .droppedEvent v = true) ∧
      ((Drop now Hunter v).2 = none → (Drop now Hunter v).1.current = .dropped)) ∧
    (((Ready now Hunter v).2 = none ↔ v.current = .dropped) ∧
      ((Ready now Hunter v).2 = none ↔ FSM.Can .readyEvent v = true) ∧
      ((Ready now Hunter v).2 = none → (Ready now Hunter v).1.current = .ready)) ∧
    (((Unknown now Admin v).2 = none ↔ v.current = .ready) ∧
      ((Unknown now Admin v).2 = none ↔ FSM.Can .unknownEvent v = true) ∧
      ((Unknown now Admin v).2 = none → (Unknown now Admin v).1.current = .unknown)) := by
  obtain ⟨b, s, t⟩ := v
  rcases hr with rfl | rfl <;> cases s <;>
    simp [StartRide, Collect, Drop, Ready, Unknown, FSM.Can, FSM.Event,
      FSM.enterStateCallbacks, FSM.SetState, transitions, events, EndUser, Hunter, Admin]

/-- Witness of C2: a hunter starts a ride on a fresh vehicle. -/
theorem validated_success_iff_allowed_source_witness :
    (Hunter = EndUser ∨ Hunter = Hunter) ∧
    (StartRide 7 Hunter (NewVehicle 0)).2 = none ∧
    (StartRide 7 Hunter (NewVehicle 0)).1.current = .riding ∧
    (Collect 7 Hunter (NewVehicle 0)).2 ≠ none :=
  have h := validated_success_iff_allowed_source 7 (NewVehicle 0) Hunter (by decide)
  ⟨by decide, h.1.1.2 rfl, h.1.2.2 (h.1.1.2 rfl),
    fun hc => absurd (h.2.1.1.1 hc) (by decide)⟩

/-- C3: with Admin each forced operation succeeds from every current state and
leaves the vehicle in the target state of the operation: StartRide in riding,
FinishRide in ready, Collect in collected, Drop in dropped, Ready in ready,
SetBounty in bounty. -/
theorem admin_forced_reaches_target (now : Time) (b : Int) (v : Vehicle) :
    ((StartRide now Admin v).2 = none ∧ (StartRide now Admin v).1.current = .riding) ∧
    ((FinishRide now b Admin v).2 = none ∧ (FinishRide now b Admin v).1.current = .ready) ∧
    ((Collect now Admin v).2 = none ∧ (Collect now Admin v).1.current = .collected) ∧
    ((Drop now Admin v).2 = none ∧ (Drop now Admin v).1.current = .dropped) ∧
    ((Ready now Admin v).2 = none ∧ (Ready now Admin v).1.current = .ready) ∧
    ((SetBounty now Admin v).2 = none ∧ (SetBounty now Admin v).1.current = .bounty) := by
  simp [StartRide, FinishRide, Collect, Drop, Ready, SetBounty, FSM.SetState,
    EndUser, Hunter, Admin]

/-- C4: an operation that returns an error leaves the vehicle (state, battery
and LastChangeOfState) exactly as it was, for each of the eight operations,
every role value and every batteryLeft argument. -/
theorem error_leaves_vehicle_unchanged (now : Time) (b : Int) (role : UserRole)
    (v : Vehicle) :
    ((StartRide now role v).2 ≠ none → (StartRide now role v).1 = v) ∧
    ((FinishRide now b role v).2 ≠ none → (FinishRide now b role v).1 = v) ∧
    ((Collect now role v).2 ≠ none → (Collect now role v).1 = v) ∧
    ((Drop now role v).2 ≠ none → (Drop now role v).1 = v) ∧
    ((Ready now role v).2 ≠ none → (Ready now role v).1 = v) ∧
    ((SetBatteryLow now role v).2 ≠ none → (SetBatteryLow now role v).1 = v) ∧
    ((SetBounty now role v).2 ≠ none → (SetBounty now role v).1 = v) ∧
    ((Unknown now role v).2 ≠ none → (Unknown now role v).1 = v) := by
  obtain ⟨c, s, t⟩ := v
  refine ⟨?_, ?_, ?_, ?_, ?_, ?_, ?_, ?_⟩
  · unfold StartRide
    split_ifs <;> cases s <;>
      simp_all [FSM.Can, FSM.Event, FSM.enterStateCallbacks, FSM.SetState, transitions, events]
  · unfold FinishRide
    split_ifs <;> cases s <;>
      simp_all [FSM.Can, FSM.Event, FSM.enterStateCallbacks, FSM.SetState, transitions, events]
    split_ifs <;> simp
  · unfold Collect
    split_ifs <;> cases s <;>
      simp_all [FSM.Can, FSM.Event, FSM.enterStateCallbacks, FSM.SetState, transitions, events]
  · unfold Drop
    split_ifs <;> cases s <;>
      simp_all [FSM.Can, FSM.Event, FSM.enterStateCallbacks, FSM.SetState, transitions, events]
  · unfold Ready
    split_ifs <;> cases s <;>
      simp_all [FSM.Can, FSM.Event, FSM.enterStateCallbacks, FSM.SetState, transitions, events]
  · unfold SetBatteryLow
    split_ifs <;> simp
  · unfold SetBounty
    split_ifs <;> simp
  · unfold Unknown
    split_ifs <;> cases s <;>
      simp_all [FSM.Can, FSM.Event, FSM.enterStateCallbacks, FSM.SetState, transitions, events]

/-- Witness of C4: a rejected FinishRide does not record the reported battery,
and a rejected Ready by a hunter does not reset it. -/
theorem error_leaves_vehicle_unchanged_witness :
    (FinishRide 9 15 EndUser (NewVehicle 0)).2 ≠ none ∧
    (FinishRide 9 15 EndUser (NewVehicle 0)).1 = NewVehicle 0 ∧
    (Ready 9 Hunter { battery := 40, current := .riding, LastChangeOfState := 3 }).2 ≠ none ∧
    (Ready 9 Hunter { battery := 40, current := .riding, LastChangeOfState := 3 }).1 =
      { battery := 40, current := .riding, LastChangeOfState := 3 } :=
  ⟨by decide,
    (error_leaves_vehicle_unchanged 9 15 EndUser (NewVehicle 0)).2.1 (by decide),
    by decide,
    (error_leaves_vehicle_unchanged 9 15 Hunter
      { battery := 40, current := .riding, LastChangeOfState := 3 }).2.2.2.2.1 (by decide)⟩

/-! ## FinishRide, SetBatteryLow and Ready -/

/-- C5: for EndUser or Hunter and every integer b, FinishRide succeeds exactly
when the vehicle is in riding; on success the battery is b and the state is
bounty when b < 20 and ready when 20 ≤ b.  From riding with b < 20 the call is
the fired batteryLow event, whose entry callback moves on to bounty. -/
theorem finishRide_validated (now : Time) (b : Int) (r : UserRole) (v : Vehicle)
    (hr : r = EndUser ∨ r = Hunter) :
    ((FinishRide now b r v).2 = none ↔ v.current = .riding) ∧
    ((FinishRide now b r v).2 = none →
      (FinishRide now b r v).1.battery = b ∧
      (b < 20 → (FinishRide now b r v).1.current = .bounty) ∧
      (20 ≤ b → (FinishRide now b r v).1.current = .ready) ∧
      (FinishRide now b r v).1.current ≠ .batteryLow) ∧
    (v.current = .riding → b < 20 →
      FinishRide now b r v = FSM.Event now .batteryLowEvent { v with battery := b }) := by
  obtain ⟨c, s, t⟩ := v
  by_cases hb : b < 20 <;> rcases hr with rfl | rfl <;> cases s <;>
    simp [FinishRide, FSM.Can, FSM.Event, FSM.enterStateCallbacks, FSM.SetState,
      transitions, events, EndUser, Hunter, Admin, hb]

/-- Witness of C5: the boundary is exact, 19 ends in bounty and 20 in ready. -/
theorem finishRide_validated_witness :
    (EndUser = EndUser ∨ EndUser = Hunter) ∧
    (FinishRide 5 19 EndUser { battery := 80, current := .riding, LastChangeOfState := 1 }).1
      = { battery := 19, current := .bounty, LastChangeOfState := 5 } ∧
    (FinishRide 5 20 EndUser { battery := 80, current := .riding, LastChangeOfState := 1 }).1
      = { battery := 20, current := .ready, LastChangeOfState := 5 } ∧
    (FinishRide 5 19 EndUser
      { battery := 80, current := .riding, LastChangeOfState := 1 }).1.current = .bounty :=
  ⟨by decide, by decide, by decide,
    ((finishRide_validated 5 19 EndUser
      { battery := 80, current := .riding, LastChangeOfState := 1 } (by decide)).2.1
        (by decide)).2.1 (by decide)⟩

/-- C6: FinishRide with Admin succeeds from every state and for every integer
b, records b as the battery and leaves the vehicle in ready, also when b < 20. -/
theorem finishRide_admin_forces_ready (now : Time) (b : Int) (v : Vehicle) :
    (FinishRide now b Admin v).2 = none ∧
    (FinishRide now b Admin v).1.battery = b ∧
    (FinishRide now b Admin v).1.current = .ready := by
  simp [FinishRide, FSM.SetState, EndUser, Hunter, Admin]

/-- C7 as stated fails: on a fresh vehicle SetBatteryLow with Admin succeeds and
the vehicle is in batteryLow afterwards, not in bounty. -/
theorem setBatteryLow_admin_not_bounty :
    (SetBatteryLow 1 Admin (NewVehicle 0)).2 = none ∧
    (SetBatteryLow 1 Admin (NewVehicle 0)).1.current = .batteryLow ∧
    (SetBatteryLow 1 Admin (NewVehicle 0)).1.current ≠ .bounty := by
  decide

/-- C7 amended: for every current state SetBatteryLow with Admin succeeds and
leaves the vehicle in batteryLow with the battery untouched and
LastChangeOfState set by the operation itself; the forced change runs no entry
callback, so there is no move on to bounty.  A fired batteryLow event, by
contrast, ends in bounty. -/
theorem setBatteryLow_admin_rests_in_batteryLow (now : Time) (v : Vehicle) :
    SetBatteryLow now Admin v =
      ({ battery := v.battery, current := .batteryLow, LastChangeOfState := now }, none) ∧
    (FSM.Event now .batteryLowEvent { v with current := .riding }).1.current = .bounty := by
  simp [SetBatteryLow, FSM.SetState, FSM.Event, FSM.enterStateCallbacks, transitions, events]

/-- C8: whenever Ready succeeds, with Hunter on a vehicle in dropped or with
Admin in any state, the vehicle is in ready with battery exactly 100, whatever
the battery was; and for the three roles a success of Ready always ends so. -/
theorem ready_resets_battery (now : Time) (r : UserRole) (v : Vehicle) :
    (((r = Hunter ∧ v.current = .dropped) ∨ r = Admin) →
      (Ready now r v).2 = none ∧ (Ready now r v).1.current = .ready ∧
      (Ready now r v).1.battery = 100) ∧
    ((r = EndUser ∨ r = Hunter ∨ r = Admin) → (Ready now r v).2 = none →
      (Ready now r v).1.current = .ready ∧ (Ready now r v).1.battery = 100) := by
  obtain ⟨c, s, t⟩ := v
  constructor
  · rintro (⟨rfl, hs⟩ | rfl)
    · simp only at hs
      subst hs
      simp [Ready, FSM.Can, FSM.Event, FSM.enterStateCallbacks, FSM.SetState,
        transitions, events, EndUser, Hunter, Admin]
    · simp [Ready, FSM.SetState, EndUser, Hunter, Admin]
  · rintro (rfl | rfl | rfl) <;> cases s <;>
      simp [Ready, FSM.Can, FSM.Event, FSM.enterStateCallbacks, FSM.SetState,
        transitions, events, EndUser, Hunter, Admin]

/-- Witness of C8: a hunter readies a dropped vehicle whose battery was 7. -/
theorem ready_resets_battery_witness :
    ((Hunter = Hunter ∧
        ({ battery := 7, current := .dropped, LastChangeOfState := 2 } : Vehicle).current
          = .dropped) ∨ Hunter = Admin) ∧
    (Ready 4 Hunter { battery := 7, current := .dropped, LastChangeOfState := 2 }).2 = none ∧
    (Ready 4 Hunter { battery := 7, current := .dropped, LastChangeOfState := 2 }).1.current
      = .ready ∧
    (Ready 4 Hunter { battery := 7, current := .dropped, LastChangeOfState := 2 }).1.battery
      = 100 :=
  ⟨by decide,
    (ready_resets_battery 4 Hunter
      { battery := 7, current := .dropped, LastChangeOfState := 2 }).1 (by decide)⟩

/-! ## Fleet sweeps -/

/-- A loop that rewrites the vehicle behind each address of the slice by an
idempotent change leaves, behind every address, the vehicle changed once when
the address occurs in the slice and the original vehicle otherwise. -/
theorem foldl_heap_pointwise (body : Heap × List String → Nat → Heap × List String)
    (f : Vehicle → Vehicle) (hf : ∀ v, f (f v) = f v)
    (hbody : ∀ acc p, (body acc p).1 = acc.1.set p (f (acc.1 p))) :
    ∀ (ps : List Nat) (acc : Heap × List String) (q : Nat),
      (ps.foldl body acc).1 q = if q ∈ ps then f (acc.1 q) else acc.1 q := by
  intro ps
  induction ps with
  | nil => intro acc q; simp
  | cons p ps ih =>
    intro acc q
    rw [List.foldl_cons, ih (body acc p) q, hbody acc p]
    by_cases hqp : q = p
    · subst hqp
      by_cases hq : q ∈ ps <;> simp [Heap.set, hq, hf]
    · by_cases hq : q ∈ ps <;> simp [Heap.set, hq, hqp]

/-- The comparison of the sweep, on integers: at least 48 hours have elapsed
exactly when the difference of the two instants is at least 48 hours. -/
theorem hours_since_ge_iff (now t : Time) :
    48 ≤ Hours (Since now t) ↔ 48 * Hour ≤ now - t := by
  have hclamp : 48 * Hour ≤ Since now t ↔ 48 * Hour ≤ now - t := by
    have hmax : 48 * Hour ≤ maxDuration := by unfold maxDuration Hour; norm_num
    have hmin : minDuration ≤ 0 := by unfold minDuration; norm_num
    have hhour : 0 < Hour := by unfold Hour; norm_num
    unfold Since Time.Sub
    dsimp only
    split_ifs with h1 h2
    · constructor <;> intro h <;> omega
    · constructor <;> intro h <;> omega
    · exact Iff.rfl
  rw [← hclamp]
  generalize Since now t = d
  have hd : Hour * d.tdiv Hour + d.tmod Hour = d := Int.tdiv_add_tmod d Hour
  have hH : (0 : ℚ) < 60 * 60 * 1000000000 := by norm_num
  have hcast : ((Hour : Int) : ℚ) = 60 * 60 * 1000000000 := by
    unfold Hour; norm_num
  have hq : Hours d = ((d : Int) : ℚ) / (60 * 60 * 1000000000) := by
    unfold Hours
    rw [eq_div_iff hH.ne.symm, add_mul, div_mul_cancel₀ _ hH.ne.symm, ← hcast]
    have := congrArg (fun z : Int => (z : ℚ)) hd
    push_cast at this
    linarith
  rw [hq, le_div_iff₀ hH, ← hcast]
  exact_mod_cast Iff.rfl

/-- Writing back the vehicle already behind an address changes nothing. -/
theorem Heap.set_self (h : Heap) (p : Nat) : h.set p (h p) = h := by
  funext q
  by_cases hq : q = p <;> simp [Heap.set, hq]

/-- One round of the bounty loop rewrites the visited vehicle: to bounty,
stamped with the clock, when it is in ready or batteryLow, and not at all
otherwise. -/
theorem readyToBountyBody_heap (now : Time) (acc : Heap × List String) (p : Nat) :
    (readyToBountyBody now acc p).1 = acc.1.set p
      ((fun v : Vehicle => if v.current = .ready ∨ v.current = .batteryLow then
        { v with current := .bounty, LastChangeOfState := now } else v) (acc.1 p)) := by
  unfold readyToBountyBody
  generalize hv : acc.1 p = v
  obtain ⟨c, s, t⟩ := v
  cases s <;>
    simp [FSM.Can, FSM.Event, FSM.enterStateCallbacks, FSM.SetState, transitions, events,
      ← hv, Heap.set_self]

/-- The store after the bounty sweep, address by address. -/
theorem sweep_to_bounty_pointwise (now : Time) (vehicles : List Nat) (h : Heap) (q : Nat) :
    (SetVehiclesFromReadyToBounty now vehicles h).1 q =
      if q ∈ vehicles ∧ ((h q).current = .ready ∨ (h q).current = .batteryLow) then
        { h q with current := .bounty, LastChangeOfState := now }
      else h q := by
  unfold SetVehiclesFromReadyToBounty
  rw [foldl_heap_pointwise (readyToBountyBody now)
    (fun v : Vehicle => if v.current = .ready ∨ v.current = .batteryLow then
      { v with current := .bounty, LastChangeOfState := now } else v)
    ?_ (readyToBountyBody_heap now)]
  · by_cases hq : q ∈ vehicles <;> simp [hq]
  · intro v
    obtain ⟨c, s, t⟩ := v
    cases s <;> simp

/-- One round of the unknown loop rewrites the visited vehicle: to unknown,
stamped with the clock, when it is in ready and at least 48 hours have elapsed
since its last change of state, and not at all otherwise. -/
theorem readyToUnknownBody_heap (now : Time) (acc : Heap × List String) (p : Nat) :
    (readyToUnknownBody now acc p).1 = acc.1.set p
      ((fun v : Vehicle =>
        if v.current = .ready ∧ 48 * Hour ≤ now - v.LastChangeOfState then
          { v with current := .unknown, LastChangeOfState := now } else v) (acc.1 p)) := by
  unfold readyToUnknownBody
  generalize hv : acc.1 p = v
  obtain ⟨c, s, t⟩ := v
  by_cases ht : 48 * Hour ≤ now - t <;> cases s <;>
    simp [FSM.Can, FSM.Event, FSM.enterStateCallbacks, FSM.SetState, transitions, events,
      ← hv, Heap.set_self, hours_since_ge_iff, ht]

/-- The store after the unknown sweep, address by address. -/
theorem sweep_to_unknown_pointwise (now : Time) (vehicles : List Nat) (h : Heap) (q : Nat) :
    (SetVehiclesFromReadyToUnknown now vehicles h).1 q =
      if q ∈ vehicles ∧ (h q).current = .ready ∧
          48 * Hour ≤ now - (h q).LastChangeOfState then
        { h q with current := .unknown, LastChangeOfState := now }
      else h q := by
  unfold SetVehiclesFromReadyToUnknown
  rw [foldl_heap_pointwise (readyToUnknownBody now)
    (fun v : Vehicle =>
      if v.current = .ready ∧ 48 * Hour ≤ now - v.LastChangeOfState then
        { v with current := .unknown, LastChangeOfState := now } else v)
    ?_ (readyToUnknownBody_heap now)]
  · by_cases hq : q ∈ vehicles <;> simp [hq]
  · intro v
    obtain ⟨c, s, t⟩ := v
    by_cases ht : 48 * Hour ≤ now - t <;> cases s <;> simp [ht]

/-- C9: SetVehiclesFromReadyToBounty changes exactly the vehicles of the slice
whose state before the call is ready or batteryLow: each of them ends in
bounty, every other vehicle keeps its state, battery and LastChangeOfState,
and position by position the slice shows the vehicles it showed before, with
that change applied (so length and order are kept). -/
theorem sweep_to_bounty_frame (now : Time) (vehicles : List Nat) (h : Heap) :
    (∀ p ∈ vehicles, ((h p).current = .ready ∨ (h p).current = .batteryLow) →
      ((SetVehiclesFromReadyToBounty now vehicles h).1 p).current = .bounty ∧
      (SetVehiclesFromReadyToBounty now vehicles h).1 p ≠ h p) ∧
    (∀ p, ¬ ((h p).current = .ready ∨ (h p).current = .batteryLow) →
      (SetVehiclesFromReadyToBounty now vehicles h).1 p = h p) ∧
    (∀ p, p ∉ vehicles → (SetVehiclesFromReadyToBounty now vehicles h).1 p = h p) ∧
    (vehicles.map (SetVehiclesFromReadyToBounty now vehicles h).1).length = vehicles.length ∧
    vehicles.map (SetVehiclesFromReadyToBounty now vehicles h).1 =
      vehicles.map (fun p =>
        if (h p).current = .ready ∨ (h p).current = .batteryLow then
          { h p with current := .bounty, LastChangeOfState := now }
        else h p) := by
  refine ⟨?_, ?_, ?_, ?_, ?_⟩
  · intro p hp hs
    rw [sweep_to_bounty_pointwise, if_pos ⟨hp, hs⟩]
    refine ⟨rfl, fun hne => ?_⟩
    have hc := congrArg Vehicle.current hne
    simp only at hc
    rcases hs with hs | hs <;> rw [hs] at hc <;> cases hc
  · intro p hs
    rw [sweep_to_bounty_pointwise, if_neg (fun hh => hs hh.2)]
  · intro p hp
    rw [sweep_to_bounty_pointwise, if_neg (fun hh => hp hh.1)]
  · simp
  · apply List.map_congr_left
    intro p hp
    rw [sweep_to_bounty_pointwise]
    simp [hp]

/-- Witness of C9: a slice over a ready, a riding and a batteryLow vehicle, the
first of them listed twice. -/
theorem sweep_to_bounty_frame_witness :
    ((SetVehiclesFromReadyToBounty 9 [0, 1, 2, 0]
        (fun p => if p = 0 then NewVehicle 0
          else if p = 1 then { battery := 50, current := .riding, LastChangeOfState := 3 }
          else { battery := 10, current := .batteryLow, LastChangeOfState := 4 })).1 2).current
      = .bounty ∧
    (SetVehiclesFromReadyToBounty 9 [0, 1, 2, 0]
        (fun p => if p = 0 then NewVehicle 0
          else if p = 1 then { battery := 50, current := .riding, LastChangeOfState := 3 }
          else { battery := 10, current := .batteryLow, LastChangeOfState := 4 })).1 1
      = { battery := 50, current := .riding, LastChangeOfState := 3 } :=
  ⟨((sweep_to_bounty_frame 9 [0, 1, 2, 0]
        (fun p => if p = 0 then NewVehicle 0
          else if p = 1 then { battery := 50, current := .riding, LastChangeOfState := 3 }
          else { battery := 10, current := .batteryLow, LastChangeOfState := 4 })).1
      2 (by decide) (by decide)).1,
    (sweep_to_bounty_frame 9 [0, 1, 2, 0]
        (fun p => if p = 0 then NewVehicle 0
          else if p = 1 then { battery := 50, current := .riding, LastChangeOfState := 3 }
          else { battery := 10, current := .batteryLow, LastChangeOfState := 4 })).2.1
      1 (by decide)⟩

/-- C10: SetVehiclesFromReadyToUnknown at clock reading now changes exactly the
vehicles of the slice that are in ready and whose LastChangeOfState lies at
least 48 hours before now: each of them ends in unknown, and a vehicle failing
either condition keeps its state, battery and LastChangeOfState.  Exactly 48
hours qualifies, one nanosecond less does not. -/
theorem sweep_to_unknown_frame (now : Time) (vehicles : List Nat) (h : Heap) :
    (∀ p ∈ vehicles, (h p).current = .ready →
      48 * Hour ≤ now - (h p).LastChangeOfState →
      ((SetVehiclesFromReadyToUnknown now vehicles h).1 p).current = .unknown ∧
      (SetVehiclesFromReadyToUnknown now vehicles h).1 p ≠ h p) ∧
    (∀ p, ¬ ((h p).current = .ready ∧ 48 * Hour ≤ now - (h p).LastChangeOfState) →
      (SetVehiclesFromReadyToUnknown now vehicles h).1 p = h p) ∧
    (∀ p, p ∉ vehicles → (SetVehiclesFromReadyToUnknown now vehicles h).1 p = h p) ∧
    (∀ p ∈ vehicles, (h p).current = .ready →
      now - (h p).LastChangeOfState = 48 * Hour →
      ((SetVehiclesFromReadyToUnknown now vehicles h).1 p).current = .unknown) ∧
    (∀ p, now - (h p).LastChangeOfState = 48 * Hour - 1 →
      (SetVehiclesFromReadyToUnknown now vehicles h).1 p = h p) := by
  refine ⟨?_, ?_, ?_, ?_, ?_⟩
  · intro p hp hs ht
    rw [sweep_to_unknown_pointwise, if_pos ⟨hp, hs, ht⟩]
    refine ⟨rfl, fun hne => ?_⟩
    have hc := congrArg Vehicle.current hne
    simp only at hc
    rw [hs] at hc
    cases hc
  · intro p hs
    rw [sweep_to_unknown_pointwise, if_neg (fun hh => hs hh.2)]
  · intro p hp
    rw [sweep_to_unknown_pointwise, if_neg (fun hh => hp hh.1)]
  · intro p hp hs ht
    rw [sweep_to_unknown_pointwise, if_pos ⟨hp, hs, ht.symm.le⟩]
  · intro p ht
    rw [sweep_to_unknown_pointwise, if_neg]
    intro hh
    have h2 : 48 * Hour ≤ now - (h p).LastChangeOfState := hh.2.2
    rw [ht] at h2
    omega

/-- Witness of C10: at 48 hours on the clock, a vehicle made ready at instant 0
goes to unknown and one made ready a nanosecond later is kept. -/
theorem sweep_to_unknown_frame_witness :
    ((SetVehiclesFromReadyToUnknown (48 * Hour) [0, 1]
        (fun p => if p = 0 then NewVehicle 0 else NewVehicle 1)).1 0).current = .unknown ∧
    (SetVehiclesFromReadyToUnknown (48 * Hour) [0, 1]
        (fun p => if p = 0 then NewVehicle 0 else NewVehicle 1)).1 1 = NewVehicle 1 :=
  ⟨((sweep_to_unknown_frame (48 * Hour) [0, 1]
        (fun p => if p = 0 then NewVehicle 0 else NewVehicle 1)).1
      0 (by decide) (by decide) (by decide)).1,
    (sweep_to_unknown_frame (48 * Hour) [0, 1]
        (fun p => if p = 0 then NewVehicle 0 else NewVehicle 1)).2.2.2.2
      1 (by decide)⟩

/-! ## Battery and timestamp frame -/

/-- The bounty sweep returns the errors it was given: firing the bounty event
right after `Can` succeeded cannot fail. -/
theorem readyToBountyBody_errs (now : Time) (acc : Heap × List String) (p : Nat) :
    (readyToBountyBody now acc p).2 = acc.2 := by
  unfold readyToBountyBody
  generalize acc.1 p = v
  obtain ⟨c, s, t⟩ := v
  cases s <;>
    simp [FSM.Can, FSM.Event, FSM.enterStateCallbacks, FSM.SetState, transitions, events]

/-- The unknown sweep returns the errors it was given. -/
theorem readyToUnknownBody_errs (now : Time) (acc : Heap × List String) (p : Nat) :
    (readyToUnknownBody now acc p).2 = acc.2 := by
  unfold readyToUnknownBody
  generalize acc.1 p = v
  obtain ⟨c, s, t⟩ := v
  by_cases ht : 48 * Hour ≤ now - t <;> cases s <;>
    simp [FSM.Can, FSM.Event, FSM.enterStateCallbacks, FSM.SetState, transitions, events,
      hours_since_ge_iff, ht]

/-- A loop whose body never adds an error ends with the errors it started
with. -/
theorem foldl_errs_const (body : Heap × List String → Nat → Heap × List String)
    (hbody : ∀ acc p, (body acc p).2 = acc.2) :
    ∀ (ps : List Nat) (acc : Heap × List String), (ps.foldl body acc).2 = acc.2 := by
  intro ps
  induction ps with
  | nil => intro acc; rfl
  | cons p ps ih =>
    intro acc
    rw [List.foldl_cons, ih (body acc p), hbody acc p]

/-- C11: the battery is written only by FinishRide and Ready: StartRide,
Collect, Drop, SetBatteryLow, SetBounty and Unknown leave it as it was for every
vehicle, every role value and either outcome, and both sweeps leave the battery
of every vehicle of the store as it was. -/
theorem battery_frame (now : Time) (role : UserRole) (v : Vehicle)
    (vehicles : List Nat) (h : Heap) (p : Nat) :
    (StartRide now role v).1.battery = v.battery ∧
    (Collect now role v).1.battery = v.battery ∧
    (Drop now role v).1.battery = v.battery ∧
    (SetBatteryLow now role v).1.battery = v.battery ∧
    (SetBounty now role v).1.battery = v.battery ∧
    (Unknown now role v).1.battery = v.battery ∧
    ((SetVehiclesFromReadyToBounty now vehicles h).1 p).battery = (h p).battery ∧
    ((SetVehiclesFromReadyToUnknown now vehicles h).1 p).battery = (h p).battery := by
  obtain ⟨c, s, t⟩ := v
  refine ⟨?_, ?_, ?_, ?_, ?_, ?_, ?_, ?_⟩
  · unfold StartRide
    split_ifs <;> cases s <;>
      simp_all [FSM.Can, FSM.Event, FSM.enterStateCallbacks, FSM.SetState, transitions, events]
  · unfold Collect
    split_ifs <;> cases s <;>
      simp_all [FSM.Can, FSM.Event, FSM.enterStateCallbacks, FSM.SetState, transitions, events]
  · unfold Drop
    split_ifs <;> cases s <;>
      simp_all [FSM.Can, FSM.Event, FSM.enterStateCallbacks, FSM.SetState, transitions, events]
  · unfold SetBatteryLow
    split_ifs <;> simp [FSM.SetState]
  · unfold SetBounty
    split_ifs <;> simp [FSM.SetState]
  · unfold Unknown
    split_ifs <;> cases s <;>
      simp_all [FSM.Can, FSM.Event, FSM.enterStateCallbacks, FSM.SetState, transitions, events]
  · rw [sweep_to_bounty_pointwise]
    split_ifs <;> rfl
  · rw [sweep_to_unknown_pointwise]
    split_ifs <;> rfl

/-- C12: with the clock read as now, every operation called with EndUser,
Hunter or Admin that returns success leaves LastChangeOfState equal to now
(validated or forced, the low-battery FinishRide included), and every vehicle
that a sweep changes has LastChangeOfState equal to now afterwards. -/
theorem success_stamps_now (now : Time) (b : Int) (r : UserRole) (v : Vehicle)
    (hr : r = EndUser ∨ r = Hunter ∨ r = Admin) :
    ((StartRide now r v).2 = none → (StartRide now r v).1.LastChangeOfState = now) ∧
    ((FinishRide now b r v).2 = none → (FinishRide now b r v).1.LastChangeOfState = now) ∧
    ((Collect now r v).2 = none → (Collect now r v).1.LastChangeOfState = now) ∧
    ((Drop now r v).2 = none → (Drop now r v).1.LastChangeOfState = now) ∧
    ((Ready now r v).2 = none → (Ready now r v).1.LastChangeOfState = now) ∧
    ((SetBatteryLow now r v).2 = none →
      (SetBatteryLow now r v).1.LastChangeOfState = now) ∧
    ((SetBounty now r v).2 = none → (SetBounty now r v).1.LastChangeOfState = now) ∧
    ((Unknown now r v).2 = none → (Unknown now r v).1.LastChangeOfState = now) ∧
    (∀ (vehicles : List Nat) (h : Heap) (p : Nat),
      ((SetVehiclesFromReadyToBounty now vehicles h).1 p ≠ h p →
        ((SetVehiclesFromReadyToBounty now vehicles h).1 p).LastChangeOfState = now) ∧
      ((SetVehiclesFromReadyToUnknown now vehicles h).1 p ≠ h p →
        ((SetVehiclesFromReadyToUnknown now vehicles h).1 p).LastChangeOfState = now)) := by
  obtain ⟨c, s, t⟩ := v
  refine ⟨?_, ?_, ?_, ?_, ?_, ?_, ?_, ?_, ?_⟩
  · rcases hr with rfl | rfl | rfl <;> cases s <;>
      simp [StartRide, FSM.Can, FSM.Event, FSM.enterStateCallbacks, FSM.SetState,
        transitions, events, EndUser, Hunter, Admin]
  · by_cases hb : b < 20 <;> rcases hr with rfl | rfl | rfl <;> cases s <;>
      simp [FinishRide, FSM.Can, FSM.Event, FSM.enterStateCallbacks, FSM.SetState,
        transitions, events, EndUser, Hunter, Admin, hb]
  · rcases hr with rfl | rfl | rfl <;> cases s <;>
      simp [Collect, FSM.Can, FSM.Event, FSM.enterStateCallbacks, FSM.SetState,
        transitions, events, EndUser, Hunter, Admin]
  · rcases hr with rfl | rfl | rfl <;> cases s <;>
      simp [Drop, FSM.Can, FSM.Event, FSM.enterStateCallbacks, FSM.SetState,
        transitions, events, EndUser, Hunter, Admin]
  · rcases hr with rfl | rfl | rfl <;> cases s <;>
      simp [Ready, FSM.Can, FSM.Event, FSM.enterStateCallbacks, FSM.SetState,
        transitions, events, EndUser, Hunter, Admin]
  · rcases hr with rfl | rfl | rfl <;>
      simp [SetBatteryLow, FSM.SetState, EndUser, Hunter, Admin]
  · rcases hr with rfl | rfl | rfl <;>
      simp [SetBounty, FSM.SetState, EndUser, Hunter, Admin]
  · rcases hr with rfl | rfl | rfl <;> cases s <;>
      simp [Unknown, FSM.Can, FSM.Event, FSM.enterStateCallbacks, FSM.SetState,
        transitions, events, EndUser, Hunter, Admin]
  · intro vehicles h p
    constructor
    · rw [sweep_to_bounty_pointwise]
      split_ifs
      · intro _; rfl
      · intro hne; exact absurd rfl hne
    · rw [sweep_to_unknown_pointwise]
      split_ifs
      · intro _; rfl
      · intro hne; exact absurd rfl hne

/-- Witness of C12: a low-battery FinishRide by an end user at instant 8, and
a forced Ready by an admin on a vehicle already in ready. -/
theorem success_stamps_now_witness :
    (EndUser = EndUser ∨ EndUser = Hunter ∨ EndUser = Admin) ∧
    (FinishRide 8 5 EndUser
      { battery := 60, current := .riding, LastChangeOfState := 2 }).2 = none ∧
    (FinishRide 8 5 EndUser
      { battery := 60, current := .riding, LastChangeOfState := 2 }).1.LastChangeOfState = 8 ∧
    (Ready 8 Admin (NewVehicle 0)).1.LastChangeOfState = 8 :=
  ⟨by decide, by decide,
    (success_stamps_now 8 5 EndUser
      { battery := 60, current := .riding, LastChangeOfState := 2 } (by decide)).2.1
        (by decide),
    (success_stamps_now 8 5 Admin (NewVehicle 0) (by decide)).2.2.2.2.1 (by decide)⟩

/-- C17: both sweeps return an empty error list, whatever the slice, the store
and the clock reading: the event is fired right after its `Can` check
succeeded and cannot fail. -/
theorem sweeps_return_no_errors (now : Time) (vehicles : List Nat) (h : Heap) :
    (SetVehiclesFromReadyToBounty now vehicles h).2 = [] ∧
    (SetVehiclesFromReadyToUnknown now vehicles h).2 = [] :=
  ⟨foldl_errs_const (readyToBountyBody now) (readyToBountyBody_errs now) vehicles (h, []),
    foldl_errs_const (readyToUnknownBody now) (readyToUnknownBody_errs now) vehicles (h, [])⟩

/-! ## Creation, rejection messages and role values outside the enumeration -/

/-- C15: a vehicle returned by NewVehicle is in ready (GetCurrentState gives
the string of ready), its Battery is 100 and its LastChangeOfState is the
creation time. -/
theorem newVehicle_initial (now : Time) :
    (NewVehicle now).current = .ready ∧
    GetCurrentState (NewVehicle now) = "ready" ∧
    Battery (NewVehicle now) = 100 ∧
    (NewVehicle now).LastChangeOfState = now := by
  refine ⟨rfl, rfl, rfl, rfl⟩

/-- C16 at its failing input: on a vehicle in bounty, a rejected StartRide and
a rejected FinishRide return the very same message, the one that speaks of
finishing a ride. -/
theorem startRide_rejection_is_finishRide_message :
    (StartRide 1 EndUser { battery := 100, current := .bounty, LastChangeOfState := 0 }).2 =
      some "you cannot finish a ride right now the current state is bounty" ∧
    (FinishRide 1 50 EndUser { battery := 100, current := .bounty, LastChangeOfState := 0 }).2 =
      some "you cannot finish a ride right now the current state is bounty" ∧
    (StartRide 1 EndUser { battery := 100, current := .bounty, LastChangeOfState := 0 }).2 =
      (FinishRide 1 50 EndUser
        { battery := 100, current := .bounty, LastChangeOfState := 0 }).2 := by
  decide

/-- C20: for a role value that is none of EndUser, Hunter and Admin, StartRide,
FinishRide, Collect, Drop and Ready return no error and leave the vehicle
(state, battery, LastChangeOfState) as it was, while SetBatteryLow, SetBounty
and Unknown return an error. -/
theorem role_outside_enumeration (now : Time) (b : Int) (role : UserRole) (v : Vehicle)
    (h1 : role ≠ EndUser) (h2 : role ≠ Hunter) (h3 : role ≠ Admin) :
    StartRide now role v = (v, none) ∧
    FinishRide now b role v = (v, none) ∧
    Collect now role v = (v, none) ∧
    Drop now role v = (v, none) ∧
    Ready now role v = (v, none) ∧
    (SetBatteryLow now role v).2 ≠ none ∧
    (SetBounty now role v).2 ≠ none ∧
    (Unknown now role v).2 ≠ none := by
  simp [StartRide, FinishRide, Collect, Drop, Ready, SetBatteryLow, SetBounty, Unknown,
    h1, h2, h3]

/-- Witness of C20: the zero value of the role type and the value 4. -/
theorem role_outside_enumeration_witness :
    ((0 : UserRole) ≠ EndUser ∧ (0 : UserRole) ≠ Hunter ∧ (0 : UserRole) ≠ Admin) ∧
    StartRide 6 0 (NewVehicle 0) = (NewVehicle 0, none) ∧
    FinishRide 6 5 4 { battery := 60, current := .riding, LastChangeOfState := 2 } =
      ({ battery := 60, current := .riding, LastChangeOfState := 2 }, none) ∧
    (Unknown 6 0 (NewVehicle 0)).2 ≠ none :=
  ⟨by decide,
    (role_outside_enumeration 6 5 0 (NewVehicle 0) (by decide) (by decide) (by decide)).1,
    (role_outside_enumeration 6 5 4
      { battery := 60, current := .riding, LastChangeOfState := 2 }
      (by decide) (by decide) (by decide)).2.1,
    (role_outside_enumeration 6 5 0 (NewVehicle 0)
      (by decide) (by decide) (by decide)).2.2.2.2.2.2.2⟩

/-- C19: a vehicle in unknown stays as it is (state, battery and
LastChangeOfState) under every operation called with EndUser or Hunter, under
Unknown called with Admin, and under both sweeps; each of the seven forced
Admin operations takes it out of unknown. -/
theorem unknown_absorbing (now : Time) (b : Int) (r : UserRole) (v : Vehicle)
    (hr : r = EndUser ∨ r = Hunter) (hv : v.current = .unknown) :
    ((StartRide now r v).1 = v ∧ (FinishRide now b r v).1 = v ∧ (Collect now r v).1 = v ∧
      (Drop now r v).1 = v ∧ (Ready now r v).1 = v ∧ (SetBatteryLow now r v).1 = v ∧
      (SetBounty now r v).1 = v ∧ (Unknown now r v).1 = v) ∧
    (Unknown now Admin v).1 = v ∧
    (∀ (vehicles : List Nat) (h : Heap) (p : Nat), h p = v →
      (SetVehiclesFromReadyToBounty now vehicles h).1 p = v ∧
      (SetVehiclesFromReadyToUnknown now vehicles h).1 p = v) ∧
    ((StartRide now Admin v).1.current ≠ .unknown ∧
      (FinishRide now b Admin v).1.current ≠ .unknown ∧
      (Collect now Admin v).1.current ≠ .unknown ∧
      (Drop now Admin v).1.current ≠ .unknown ∧
      (Ready now Admin v).1.current ≠ .unknown ∧
      (SetBatteryLow now Admin v).1.current ≠ .unknown ∧
      (SetBounty now Admin v).1.current ≠ .unknown) := by
  obtain ⟨c, s, t⟩ := v
  simp only at hv
  subst hv
  refine ⟨?_, ?_, ?_, ?_⟩
  · rcases hr with rfl | rfl <;>
      simp [StartRide, FinishRide, Collect, Drop, Ready, SetBatteryLow, SetBounty, Unknown,
        FSM.Can, FSM.Event, transitions, events, EndUser, Hunter, Admin]
  · simp [Unknown, FSM.Can, FSM.Event, transitions, events, EndUser, Hunter, Admin]
  · intro vehicles h p hp
    rw [sweep_to_bounty_pointwise, sweep_to_unknown_pointwise, hp]
    simp
  · simp [StartRide, FinishRide, Collect, Drop, Ready, SetBatteryLow, SetBounty,
      FSM.SetState, EndUser, Hunter, Admin]

/-- Witness of C19: a hunter and the unknown sweep on a vehicle in unknown. -/
theorem unknown_absorbing_witness :
    (Hunter = EndUser ∨ Hunter = Hunter) ∧
    (Ready 9 Hunter { battery := 30, current := .unknown, LastChangeOfState := 1 }).1 =
      { battery := 30, current := .unknown, LastChangeOfState := 1 } ∧
    (StartRide 9 Admin
      { battery := 30, current := .unknown, LastChangeOfState := 1 }).1.current ≠ .unknown :=
  ⟨by decide,
    (unknown_absorbing 9 0 Hunter { battery := 30, current := .unknown, LastChangeOfState := 1 }
      (by decide) rfl).1.2.2.2.2.1,
    (unknown_absorbing 9 0 Hunter { battery := 30, current := .unknown, LastChangeOfState := 1 }
      (by decide) rfl).2.2.2.1⟩

/-! ## Reachable vehicles -/

/-- A property of single vehicles that every permitted call preserves on the
whole store holds of every vehicle after any sequence of permitted calls. -/
theorem run_invariant (I : Vehicle → Prop) (ok : Time × Call → Prop)
    (hstep : ∀ (c : Time × Call) (h : Heap), ok c → (∀ p, I (h p)) →
      ∀ p, I (c.2.exec c.1 h p)) :
    ∀ (calls : List (Time × Call)) (h : Heap), (∀ c ∈ calls, ok c) → (∀ p, I (h p)) →
      ∀ p, I (run calls h p) := by
  intro calls
  induction calls with
  | nil => intro h _ hI p; exact hI p
  | cons c cs ih =>
    intro h hok hI
    have h1 := hstep c h (hok c (List.mem_cons_self c cs)) hI
    exact ih (c.2.exec c.1 h) (fun d hd => hok d (List.mem_cons_of_mem c hd)) h1

/-- Writing a vehicle with a property into a store whose vehicles all have it
gives a store whose vehicles all have it. -/
theorem Heap.set_all (I : Vehicle → Prop) (h : Heap) (q : Nat) (v : Vehicle)
    (hI : ∀ p, I (h p)) (hv : I v) : ∀ p, I (h.set q v p) := by
  intro p
  unfold Heap.set
  split_ifs
  · exact hv
  · exact hI p

/-- Every operation other than SetBatteryLow, with any role value and any
argument, and SetBatteryLow with a role other than Admin, keeps a vehicle that
is not in batteryLow out of batteryLow. -/
theorem op_avoids_batteryLow (now : Time) (b : Int) (r : UserRole) (v : Vehicle)
    (hv : v.current ≠ .batteryLow) :
    (StartRide now r v).1.current ≠ .batteryLow ∧
    (FinishRide now b r v).1.current ≠ .batteryLow ∧
    (Collect now r v).1.current ≠ .batteryLow ∧
    (Drop now r v).1.current ≠ .batteryLow ∧
    (Ready now r v).1.current ≠ .batteryLow ∧
    (r ≠ Admin → (SetBatteryLow now r v).1.current ≠ .batteryLow) ∧
    (SetBounty now r v).1.current ≠ .batteryLow ∧
    (Unknown now r v).1.current ≠ .batteryLow := by
  obtain ⟨c, s, t⟩ := v
  refine ⟨?_, ?_, ?_, ?_, ?_, ?_, ?_, ?_⟩
  · unfold StartRide
    split_ifs <;> cases s <;>
      simp_all [FSM.Can, FSM.Event, FSM.enterStateCallbacks, FSM.SetState, transitions, events]
  · unfold FinishRide
    split_ifs <;> cases s <;>
      simp_all [FSM.Can, FSM.Event, FSM.enterStateCallbacks, FSM.SetState, transitions, events]
    split_ifs <;> simp
  · unfold Collect
    split_ifs <;> cases s <;>
      simp_all [FSM.Can, FSM.Event, FSM.enterStateCallbacks, FSM.SetState, transitions, events]
  · unfold Drop
    split_ifs <;> cases s <;>
      simp_all [FSM.Can, FSM.Event, FSM.enterStateCallbacks, FSM.SetState, transitions, events]
  · unfold Ready
    split_ifs <;> cases s <;>
      simp_all [FSM.Can, FSM.Event, FSM.enterStateCallbacks, FSM.SetState, transitions, events]
  · intro hr
    simpa [SetBatteryLow, hr] using hv
  · unfold SetBounty
    split_ifs <;> simp_all [FSM.SetState]
  · unfold Unknown
    split_ifs <;> cases s <;>
      simp_all [FSM.Can, FSM.Event, FSM.enterStateCallbacks, FSM.SetState, transitions, events]

/-- Both sweeps keep a vehicle that is not in batteryLow out of batteryLow. -/
theorem sweep_avoids_batteryLow (now : Time) (vehicles : List Nat) (h : Heap) (p : Nat)
    (hv : (h p).current ≠ .batteryLow) :
    ((SetVehiclesFromReadyToBounty now vehicles h).1 p).current ≠ .batteryLow ∧
    ((SetVehiclesFromReadyToUnknown now vehicles h).1 p).current ≠ .batteryLow := by
  rw [sweep_to_bounty_pointwise, sweep_to_unknown_pointwise]
  constructor <;> split_ifs <;> first | exact hv | simp

/-- C14: batteryLow is no resting state off the forced path: every operation
other than SetBatteryLow with Admin (any role value, any argument) and both
sweeps leave a vehicle that is not in batteryLow in a state other than
batteryLow; hence after any sequence of calls without a SetBatteryLow by Admin
no vehicle that came out of NewVehicle is in batteryLow. -/
theorem batteryLow_not_resting (now : Time) (b : Int) (r : UserRole) (v : Vehicle)
    (vehicles : List Nat) (h : Heap) (p : Nat)
    (created : Nat → Time) (calls : List (Time × Call)) :
    (v.current ≠ .batteryLow →
      (StartRide now r v).1.current ≠ .batteryLow ∧
      (FinishRide now b r v).1.current ≠ .batteryLow ∧
      (Collect now r v).1.current ≠ .batteryLow ∧
      (Drop now r v).1.current ≠ .batteryLow ∧
      (Ready now r v).1.current ≠ .batteryLow ∧
      (r ≠ Admin → (SetBatteryLow now r v).1.current ≠ .batteryLow) ∧
      (SetBounty now r v).1.current ≠ .batteryLow ∧
      (Unknown now r v).1.current ≠ .batteryLow) ∧
    ((h p).current ≠ .batteryLow →
      ((SetVehiclesFromReadyToBounty now vehicles h).1 p).current ≠ .batteryLow ∧
      ((SetVehiclesFromReadyToUnknown now vehicles h).1 p).current ≠ .batteryLow) ∧
    ((∀ c ∈ calls, ∀ q, c.2 ≠ Call.setBatteryLow q Admin) →
      (run calls (newStore created) p).current ≠ .batteryLow) := by
  refine ⟨op_avoids_batteryLow now b r v, sweep_avoids_batteryLow now vehicles h p, ?_⟩
  intro hok
  refine run_invariant (fun v => v.current ≠ .batteryLow)
    (fun c => ∀ q, c.2 ≠ Call.setBatteryLow q Admin) ?_ calls (newStore created) hok ?_ p
  · rintro ⟨t, c⟩ g hc hI
    have key := Heap.set_all (fun v : Vehicle => v.current ≠ .batteryLow)
    cases c with
    | startRide q r =>
      exact key g q _ hI (op_avoids_batteryLow t 0 r (g q) (hI q)).1
    | finishRide q b r =>
      exact key g q _ hI (op_avoids_batteryLow t b r (g q) (hI q)).2.1
    | collect q r =>
      exact key g q _ hI (op_avoids_batteryLow t 0 r (g q) (hI q)).2.2.1
    | drop q r =>
      exact key g q _ hI (op_avoids_batteryLow t 0 r (g q) (hI q)).2.2.2.1
    | ready q r =>
      exact key g q _ hI (op_avoids_batteryLow t 0 r (g q) (hI q)).2.2.2.2.1
    | setBatteryLow q r =>
      refine key g q _ hI
        ((op_avoids_batteryLow t 0 r (g q) (hI q)).2.2.2.2.2.1 ?_)
      rintro rfl
      exact hc q rfl
    | setBounty q r =>
      exact key g q _ hI (op_avoids_batteryLow t 0 r (g q) (hI q)).2.2.2.2.2.2.1
    | unknown q r =>
      exact key g q _ hI (op_avoids_batteryLow t 0 r (g q) (hI q)).2.2.2.2.2.2.2
    | sweepToBounty vs =>
      intro q
      exact (sweep_avoids_batteryLow t vs g q (hI q)).1
    | sweepToUnknown vs =>
      intro q
      exact (sweep_avoids_batteryLow t vs g q (hI q)).2
  · intro q
    simp [newStore, NewVehicle]

/-- Witness of C14: a ride that ends with battery 5 passes through the
batteryLow event and the vehicle is not in batteryLow afterwards. -/
theorem batteryLow_not_resting_witness :
    (∀ c ∈ [((1 : Time), Call.startRide 0 EndUser), (2, Call.finishRide 0 5 EndUser)],
      ∀ q, c.2 ≠ Call.setBatteryLow q Admin) ∧
    (run [((1 : Time), Call.startRide 0 EndUser), (2, Call.finishRide 0 5 EndUser)]
      (newStore (fun _ => 0)) 0).current ≠ .batteryLow :=
  ⟨by simp,
    (batteryLow_not_resting 0 0 EndUser (NewVehicle 0) [] (newStore (fun _ => 0)) 0
      (fun _ => 0)
      [((1 : Time), Call.startRide 0 EndUser), (2, Call.finishRide 0 5 EndUser)]).2.2
      (by simp)⟩

/-- An operation keeps the battery within 0..100 when it was so before and,
for FinishRide, the reported battery is within 0..100. -/
theorem op_keeps_battery_range (now : Time) (b : Int) (r : UserRole) (v : Vehicle)
    (hv : 0 ≤ v.battery ∧ v.battery ≤ 100) :
    (0 ≤ (StartRide now r v).1.battery ∧ (StartRide now r v).1.battery ≤ 100) ∧
    (0 ≤ b ∧ b ≤ 100 →
      0 ≤ (FinishRide now b r v).1.battery ∧ (FinishRide now b r v).1.battery ≤ 100) ∧
    (0 ≤ (Collect now r v).1.battery ∧ (Collect now r v).1.battery ≤ 100) ∧
    (0 ≤ (Drop now r v).1.battery ∧ (Drop now r v).1.battery ≤ 100) ∧
    (0 ≤ (Ready now r v).1.battery ∧ (Ready now r v).1.battery ≤ 100) ∧
    (0 ≤ (SetBatteryLow now r v).1.battery ∧ (SetBatteryLow now r v).1.battery ≤ 100) ∧
    (0 ≤ (SetBounty now r v).1.battery ∧ (SetBounty now r v).1.battery ≤ 100) ∧
    (0 ≤ (Unknown now r v).1.battery ∧ (Unknown now r v).1.battery ≤ 100) := by
  obtain ⟨c, s, t⟩ := v
  simp only at hv
  refine ⟨?_, ?_, ?_, ?_, ?_, ?_, ?_, ?_⟩
  · unfold StartRide
    split_ifs <;> cases s <;>
      simp_all [FSM.Can, FSM.Event, FSM.enterStateCallbacks, FSM.SetState, transitions, events]
  · intro hb
    unfold FinishRide
    split_ifs <;> cases s <;>
      simp_all [FSM.Can, FSM.Event, FSM.enterStateCallbacks, FSM.SetState, transitions, events]
    split_ifs <;> simp [hb]
  · unfold Collect
    split_ifs <;> cases s <;>
      simp_all [FSM.Can, FSM.Event, FSM.enterStateCallbacks, FSM.SetState, transitions, events]
  · unfold Drop
    split_ifs <;> cases s <;>
      simp_all [FSM.Can, FSM.Event, FSM.enterStateCallbacks, FSM.SetState, transitions, events]
  · unfold Ready
    split_ifs <;> cases s <;>
      simp_all [FSM.Can, FSM.Event, FSM.enterStateCallbacks, FSM.SetState, transitions, events]
  · unfold SetBatteryLow
    split_ifs <;> simp_all [FSM.SetState]
  · unfold SetBounty
    split_ifs <;> simp_all [FSM.SetState]
  · unfold Unknown
    split_ifs <;> cases s <;>
      simp_all [FSM.Can, FSM.Event, FSM.enterStateCallbacks, FSM.SetState, transitions, events]

/-- Both sweeps leave the battery of every vehicle as it was. -/
theorem sweep_keeps_battery (now : Time) (vehicles : List Nat) (h : Heap) (p : Nat) :
    ((SetVehiclesFromReadyToBounty now vehicles h).1 p).battery = (h p).battery ∧
    ((SetVehiclesFromReadyToUnknown now vehicles h).1 p).battery = (h p).battery := by
  rw [sweep_to_bounty_pointwise, sweep_to_unknown_pointwise]
  constructor <;> split_ifs <;> rfl

/-- C13 as stated fails: FinishRide records whatever integer it is given, so a
ride finished by an end user with batteryLeft 150 leaves the battery at 150,
and a forced FinishRide with batteryLeft -5 leaves it at -5. -/
theorem battery_leaves_range :
    Battery (run [((1 : Time), Call.startRide 0 EndUser), (2, Call.finishRide 0 150 EndUser)]
      (newStore (fun _ => 0)) 0) = 150 ∧
    ¬ (Battery (run [((1 : Time), Call.startRide 0 EndUser),
      (2, Call.finishRide 0 150 EndUser)] (newStore (fun _ => 0)) 0) ≤ 100) ∧
    Battery (run [((1 : Time), Call.finishRide 0 (-5) Admin)] (newStore (fun _ => 0)) 0) = -5 ∧
    ¬ (0 ≤ Battery (run [((1 : Time), Call.finishRide 0 (-5) Admin)]
      (newStore (fun _ => 0)) 0)) := by
  decide

/-- C13 amended: after any sequence of calls in which every batteryLeft passed
to FinishRide lies in 0..100, the Battery of every vehicle that came out of
NewVehicle lies in 0..100. -/
theorem battery_in_range_of_reported_in_range (created : Nat → Time)
    (calls : List (Time × Call)) (p : Nat)
    (hb : ∀ c ∈ calls, ∀ q b r, c.2 = Call.finishRide q b r → 0 ≤ b ∧ b ≤ 100) :
    0 ≤ Battery (run calls (newStore created) p) ∧
    Battery (run calls (newStore created) p) ≤ 100 := by
  refine run_invariant (fun v => 0 ≤ v.battery ∧ v.battery ≤ 100)
    (fun c => ∀ q b r, c.2 = Call.finishRide q b r → 0 ≤ b ∧ b ≤ 100)
    ?_ calls (newStore created) hb ?_ p
  · rintro ⟨t, c⟩ g hc hI
    have key := Heap.set_all (fun v : Vehicle => 0 ≤ v.battery ∧ v.battery ≤ 100)
    cases c with
    | startRide q r =>
      exact key g q _ hI (op_keeps_battery_range t 0 r (g q) (hI q)).1
    | finishRide q b r =>
      exact key g q _ hI ((op_keeps_battery_range t b r (g q) (hI q)).2.1 (hc q b r rfl))
    | collect q r =>
      exact key g q _ hI (op_keeps_battery_range t 0 r (g q) (hI q)).2.2.1
    | drop q r =>
      exact key g q _ hI (op_keeps_battery_range t 0 r (g q) (hI q)).2.2.2.1
    | ready q r =>
      exact key g q _ hI (op_keeps_battery_range t 0 r (g q) (hI q)).2.2.2.2.1
    | setBatteryLow q r =>
      exact key g q _ hI (op_keeps_battery_range t 0 r (g q) (hI q)).2.2.2.2.2.1
    | setBounty q r =>
      exact key g q _ hI (op_keeps_battery_range t 0 r (g q) (hI q)).2.2.2.2.2.2.1
    | unknown q r =>
      exact key g q _ hI (op_keeps_battery_range t 0 r (g q) (hI q)).2.2.2.2.2.2.2
    | sweepToBounty vs =>
      intro q
      show 0 ≤ ((SetVehiclesFromReadyToBounty t vs g).1 q).battery ∧
        ((SetVehiclesFromReadyToBounty t vs g).1 q).battery ≤ 100
      rw [(sweep_keeps_battery t vs g q).1]
      exact hI q
    | sweepToUnknown vs =>
      intro q
      show 0 ≤ ((SetVehiclesFromReadyToUnknown t vs g).1 q).battery ∧
        ((SetVehiclesFromReadyToUnknown t vs g).1 q).battery ≤ 100
      rw [(sweep_keeps_battery t vs g q).2]
      exact hI q
  · intro q
    simp [newStore, NewVehicle]

/-- Witness of C13 amended: a ride finished with batteryLeft 15, then a sweep. -/
theorem battery_in_range_of_reported_in_range_witness :
    (∀ c ∈ [((1 : Time), Call.startRide 0 EndUser), (2, Call.finishRide 0 15 EndUser),
        (3, Call.sweepToBounty [0, 1])],
      ∀ q b r, c.2 = Call.finishRide q b r → 0 ≤ b ∧ b ≤ 100) ∧
    0 ≤ Battery (run [((1 : Time), Call.startRide 0 EndUser),
      (2, Call.finishRide 0 15 EndUser), (3, Call.sweepToBounty [0, 1])]
      (newStore (fun _ => 0)) 0) ∧
    Battery (run [((1 : Time), Call.startRide 0 EndUser),
      (2, Call.finishRide 0 15 EndUser), (3, Call.sweepToBounty [0, 1])]
      (newStore (fun _ => 0)) 0) ≤ 100 :=
  ⟨by simp,
    battery_in_range_of_reported_in_range (fun _ => 0)
      [((1 : Time), Call.startRide 0 EndUser), (2, Call.finishRide 0 15 EndUser),
        (3, Call.sweepToBounty [0, 1])] 0 (by simp)⟩

/-- Every operation called with EndUser or Hunter, and Unknown called with
Admin, keeps the property that a vehicle in ready, riding or unknown has a
battery of at least 20. -/
theorem unforced_op_keeps_charge (now : Time) (b : Int) (r : UserRole) (v : Vehicle)
    (hr : r = EndUser ∨ r = Hunter)
    (hv : (v.current = .ready ∨ v.current = .riding ∨ v.current = .unknown) →
      20 ≤ v.battery) :
    (((StartRide now r v).1.current = .ready ∨ (StartRide now r v).1.current = .riding ∨
      (StartRide now r v).1.current = .unknown) → 20 ≤ (StartRide now r v).1.battery) ∧
    (((FinishRide now b r v).1.current = .ready ∨ (FinishRide now b r v).1.current = .riding ∨
      (FinishRide now b r v).1.current = .unknown) → 20 ≤ (FinishRide now b r v).1.battery) ∧
    (((Collect now r v).1.current = .ready ∨ (Collect now r v).1.current = .riding ∨
      (Collect now r v).1.current = .unknown) → 20 ≤ (Collect now r v).1.battery) ∧
    (((Drop now r v).1.current = .ready ∨ (Drop now r v).1.current = .riding ∨
      (Drop now r v).1.current = .unknown) → 20 ≤ (Drop now r v).1.battery) ∧
    (((Ready now r v).1.current = .ready ∨ (Ready now r v).1.current = .riding ∨
      (Ready now r v).1.current = .unknown) → 20 ≤ (Ready now r v).1.battery) ∧
    (((SetBatteryLow now r v).1.current = .ready ∨
      (SetBatteryLow now r v).1.current = .riding ∨
      (SetBatteryLow now r v).1.current = .unknown) →
        20 ≤ (SetBatteryLow now r v).1.battery) ∧
    (((SetBounty now r v).1.current = .ready ∨ (SetBounty now r v).1.current = .riding ∨
      (SetBounty now r v).1.current = .unknown) → 20 ≤ (SetBounty now r v).1.battery) ∧
    (((Unknown now r v).1.current = .ready ∨ (Unknown now r v).1.current = .riding ∨
      (Unknown now r v).1.current = .unknown) → 20 ≤ (Unknown now r v).1.battery) ∧
    (((Unknown now Admin v).1.current = .ready ∨ (Unknown now Admin v).1.current = .riding ∨
      (Unknown now Admin v).1.current = .unknown) → 20 ≤ (Unknown now Admin v).1.battery) := by
  obtain ⟨c, s, t⟩ := v
  simp only at hv
  refine ⟨?_, ?_, ?_, ?_, ?_, ?_, ?_, ?_, ?_⟩
  · rcases hr with rfl | rfl <;> cases s <;>
      simp_all [StartRide, FSM.Can, FSM.Event, FSM.enterStateCallbacks, FSM.SetState,
        transitions, events, EndUser, Hunter, Admin]
  · by_cases hb : b < 20 <;> rcases hr with rfl | rfl <;> cases s <;>
      simp_all [FinishRide, FSM.Can, FSM.Event, FSM.enterStateCallbacks, FSM.SetState,
        transitions, events, EndUser, Hunter, Admin] <;>
      (rw [if_neg (not_lt.mpr hb)]; intro _; exact hb)
  · rcases hr with rfl | rfl <;> cases s <;>
      simp_all [Collect, FSM.Can, FSM.Event, FSM.enterStateCallbacks, FSM.SetState,
        transitions, events, EndUser, Hunter, Admin]
  · rcases hr with rfl | rfl <;> cases s <;>
      simp_all [Drop, FSM.Can, FSM.Event, FSM.enterStateCallbacks, FSM.SetState,
        transitions, events, EndUser, Hunter, Admin]
  · rcases hr with rfl | rfl <;> cases s <;>
      simp_all [Ready, FSM.Can, FSM.Event, FSM.enterStateCallbacks, FSM.SetState,
        transitions, events, EndUser, Hunter, Admin]
  · rcases hr with rfl | rfl <;>
      simp_all [SetBatteryLow, EndUser, Hunter, Admin]
  · rcases hr with rfl | rfl <;>
      simp_all [SetBounty, EndUser, Hunter, Admin]
  · rcases hr with rfl | rfl <;>
      simp_all [Unknown, EndUser, Hunter, Admin]
  · cases s <;>
      simp_all [Unknown, FSM.Can, FSM.Event, FSM.enterStateCallbacks, FSM.SetState,
        transitions, events, EndUser, Hunter, Admin]

/-- Both sweeps keep the property that a vehicle in ready, riding or unknown
has a battery of at least 20. -/
theorem sweep_keeps_charge (now : Time) (vehicles : List Nat) (h : Heap) (p : Nat)
    (hv : ((h p).current = .ready ∨ (h p).current = .riding ∨ (h p).current = .unknown) →
      20 ≤ (h p).battery) :
    ((((SetVehiclesFromReadyToBounty now vehicles h).1 p).current = .ready ∨
      ((SetVehiclesFromReadyToBounty now vehicles h).1 p).current = .riding ∨
      ((SetVehiclesFromReadyToBounty now vehicles h).1 p).current = .unknown) →
        20 ≤ ((SetVehiclesFromReadyToBounty now vehicles h).1 p).battery) ∧
    ((((SetVehiclesFromReadyToUnknown now vehicles h).1 p).current = .ready ∨
      ((SetVehiclesFromReadyToUnknown now vehicles h).1 p).current = .riding ∨
      ((SetVehiclesFromReadyToUnknown now vehicles h).1 p).current = .unknown) →
        20 ≤ ((SetVehiclesFromReadyToUnknown now vehicles h).1 p).battery) := by
  rw [sweep_to_bounty_pointwise, sweep_to_unknown_pointwise]
  constructor
  · split_ifs with hc
    · simp
    · exact hv
  · split_ifs with hc
    · intro _
      exact hv (Or.inl hc.2.1)
    · exact hv

/-- C18 as stated fails in its last sentence: a forced FinishRide is not the
only operation that breaks the property.  After a ride finished by an end user
with batteryLeft 5 the vehicle is in bounty with battery 5, where the property
holds; StartRide called with Admin then leaves it in riding with battery 5,
and no FinishRide with Admin occurs in the sequence. -/
theorem forced_startRide_breaks_charge :
    (run [((1 : Time), Call.startRide 0 EndUser), (2, Call.finishRide 0 5 EndUser)]
      (newStore (fun _ => 0)) 0).current = .bounty ∧
    (run [((1 : Time), Call.startRide 0 EndUser), (2, Call.finishRide 0 5 EndUser),
      (3, Call.startRide 0 Admin)] (newStore (fun _ => 0)) 0).current = .riding ∧
    Battery (run [((1 : Time), Call.startRide 0 EndUser), (2, Call.finishRide 0 5 EndUser),
      (3, Call.startRide 0 Admin)] (newStore (fun _ => 0)) 0) = 5 ∧
    ¬ (20 ≤ Battery (run [((1 : Time), Call.startRide 0 EndUser),
      (2, Call.finishRide 0 5 EndUser), (3, Call.startRide 0 Admin)]
      (newStore (fun _ => 0)) 0)) := by
  decide

/-- C18 amended: after any sequence of operations called with EndUser or Hunter
(any batteryLeft), of Unknown called with Admin, and of the two sweeps, a
vehicle that came out of NewVehicle and is in ready, riding or unknown has a
battery of at least 20.  Two forced operations break this: FinishRide with
Admin and batteryLeft below 20 leaves a vehicle in ready with that battery,
and StartRide with Admin on a vehicle whose battery is below 20 leaves it in
riding with that battery.  The other forced operations (Collect, Drop, Ready,
SetBatteryLow, SetBounty with Admin) always leave a vehicle that has the
property. -/
theorem rideable_vehicle_charged (created : Nat → Time) (calls : List (Time × Call))
    (p : Nat) (now : Time) (b : Int) (v : Vehicle)
    (hok : ∀ c ∈ calls, ∀ r, c.2.role = some r →
      r = EndUser ∨ r = Hunter ∨ ∃ q, c.2 = Call.unknown q Admin) :
    (((run calls (newStore created) p).current = .ready ∨
      (run calls (newStore created) p).current = .riding ∨
      (run calls (newStore created) p).current = .unknown) →
        20 ≤ Battery (run calls (newStore created) p)) ∧
    (b < 20 → (FinishRide now b Admin v).1.current = .ready ∧
      Battery (FinishRide now b Admin v).1 < 20) ∧
    (Battery v < 20 → (StartRide now Admin v).1.current = .riding ∧
      Battery (StartRide now Admin v).1 < 20) ∧
    ((((Collect now Admin v).1.current = .ready ∨ (Collect now Admin v).1.current = .riding ∨
        (Collect now Admin v).1.current = .unknown) → 20 ≤ Battery (Collect now Admin v).1) ∧
      (((Drop now Admin v).1.current = .ready ∨ (Drop now Admin v).1.current = .riding ∨
        (Drop now Admin v).1.current = .unknown) → 20 ≤ Battery (Drop now Admin v).1) ∧
      (((Ready now Admin v).1.current = .ready ∨ (Ready now Admin v).1.current = .riding ∨
        (Ready now Admin v).1.current = .unknown) → 20 ≤ Battery (Ready now Admin v).1) ∧
      (((SetBatteryLow now Admin v).1.current = .ready ∨
        (SetBatteryLow now Admin v).1.current = .riding ∨
        (SetBatteryLow now Admin v).1.current = .unknown) →
          20 ≤ Battery (SetBatteryLow now Admin v).1) ∧
      (((SetBounty now Admin v).1.current = .ready ∨
        (SetBounty now Admin v).1.current = .riding ∨
        (SetBounty now Admin v).1.current = .unknown) →
          20 ≤ Battery (SetBounty now Admin v).1)) := by
  refine ⟨?_, ?_, ?_, ?_⟩
  · refine run_invariant
      (fun v => (v.current = .ready ∨ v.current = .riding ∨ v.current = .unknown) →
        20 ≤ v.battery)
      (fun c => ∀ r, c.2.role = some r →
        r = EndUser ∨ r = Hunter ∨ ∃ q, c.2 = Call.unknown q Admin)
      ?_ calls (newStore created) hok ?_ p
    · rintro ⟨t, c⟩ g hc hI
      have key := Heap.set_all
        (fun v : Vehicle => (v.current = .ready ∨ v.current = .riding ∨ v.current = .unknown) →
          20 ≤ v.battery)
      cases c with
      | startRide q r =>
        have hr : r = EndUser ∨ r = Hunter := by
          rcases hc r rfl with h | h | ⟨_, h⟩
          · exact Or.inl h
          · exact Or.inr h
          · cases h
        exact key g q _ hI (unforced_op_keeps_charge t 0 r (g q) hr (hI q)).1
      | finishRide q b r =>
        have hr : r = EndUser ∨ r = Hunter := by
          rcases hc r rfl with h | h | ⟨_, h⟩
          · exact Or.inl h
          · exact Or.inr h
          · cases h
        exact key g q _ hI (unforced_op_keeps_charge t b r (g q) hr (hI q)).2.1
      | collect q r =>
        have hr : r = EndUser ∨ r = Hunter := by
          rcases hc r rfl with h | h | ⟨_, h⟩
          · exact Or.inl h
          · exact Or.inr h
          · cases h
        exact key g q _ hI (unforced_op_keeps_charge t 0 r (g q) hr (hI q)).2.2.1
      | drop q r =>
        have hr : r = EndUser ∨ r = Hunter := by
          rcases hc r rfl with h | h | ⟨_, h⟩
          · exact Or.inl h
          · exact Or.inr h
          · cases h
        exact key g q _ hI (unforced_op_keeps_charge t 0 r (g q) hr (hI q)).2.2.2.1
      | ready q r =>
        have hr : r = EndUser ∨ r = Hunter := by
          rcases hc r rfl with h | h | ⟨_, h⟩
          · exact Or.inl h
          · exact Or.inr h
          · cases h
        exact key g q _ hI (unforced_op_keeps_charge t 0 r (g q) hr (hI q)).2.2.2.2.1
      | setBatteryLow q r =>
        have hr : r = EndUser ∨ r = Hunter := by
          rcases hc r rfl with h | h | ⟨_, h⟩
          · exact Or.inl h
          · exact Or.inr h
          · cases h
        exact key g q _ hI (unforced_op_keeps_charge t 0 r (g q) hr (hI q)).2.2.2.2.2.1
      | setBounty q r =>
        have hr : r = EndUser ∨ r = Hunter := by
          rcases hc r rfl with h | h | ⟨_, h⟩
          · exact Or.inl h
          · exact Or.inr h
          · cases h
        exact key g q _ hI (unforced_op_keeps_charge t 0 r (g q) hr (hI q)).2.2.2.2.2.2.1
      | unknown q r =>
        rcases hc r rfl with h | h | ⟨_, h⟩
        · exact key g q _ hI
            (unforced_op_keeps_charge t 0 r (g q) (Or.inl h) (hI q)).2.2.2.2.2.2.2.1
        · exact key g q _ hI
            (unforced_op_keeps_charge t 0 r (g q) (Or.inr h) (hI q)).2.2.2.2.2.2.2.1
        · cases h
          exact key g q _ hI
            (unforced_op_keeps_charge t 0 EndUser (g q) (Or.inl rfl) (hI q)).2.2.2.2.2.2.2.2
      | sweepToBounty vs =>
        intro q
        exact (sweep_keeps_charge t vs g q (hI q)).1
      | sweepToUnknown vs =>
        intro q
        exact (sweep_keeps_charge t vs g q (hI q)).2
    · intro q
      simp [newStore, NewVehicle]
  · intro hb
    simpa [FinishRide, FSM.SetState, Battery, EndUser, Hunter, Admin] using hb
  · intro hb
    simpa [StartRide, FSM.SetState, Battery, EndUser, Hunter, Admin] using hb
  · simp [Collect, Drop, Ready, SetBatteryLow, SetBounty, FSM.SetState, Battery,
      EndUser, Hunter, Admin]

/-- Witness of C18 amended: a ride finished with batteryLeft 25, the vehicle
then set to unknown by an admin. -/
theorem rideable_vehicle_charged_witness :
    (∀ c ∈ [((1 : Time), Call.startRide 0 Hunter), (2, Call.finishRide 0 25 EndUser),
        (3, Call.unknown 0 Admin)],
      ∀ r, c.2.role = some r →
        r = EndUser ∨ r = Hunter ∨ ∃ q, c.2 = Call.unknown q Admin) ∧
    (run [((1 : Time), Call.startRide 0 Hunter), (2, Call.finishRide 0 25 EndUser),
      (3, Call.unknown 0 Admin)] (newStore (fun _ => 0)) 0).current = .unknown ∧
    20 ≤ Battery (run [((1 : Time), Call.startRide 0 Hunter),
      (2, Call.finishRide 0 25 EndUser), (3, Call.unknown 0 Admin)]
      (newStore (fun _ => 0)) 0) :=
  ⟨by simp [Call.role],
    by decide,
    (rideable_vehicle_charged (fun _ => 0)
      [((1 : Time), Call.startRide 0 Hunter), (2, Call.finishRide 0 25 EndUser),
        (3, Call.unknown 0 Admin)] 0 0 0 (NewVehicle 0) (by simp [Call.role])).1
      (by decide)⟩

end Domain
